import Mathlib

/-!
Verification development for the nanopublication utilities module
(nanopub_utils.py): TriG text assembly for nanopublication documents.
Python strings are modelled as Lean String values; Python dicts with
string keys are modelled as association lists in insertion order;
optional parameters are modelled as Option values, with Python
truthiness of an optional string given by pyTruthy and of an optional
list by pyTruthyList. The ambient timestamp and the random unique
value consumed by the identifier generator are passed as explicit
arguments, since the embedding is pure.
-/

/-- Model of Python sep.join(lines). -/
def pyJoin (sep : String) : List String → String
  | [] => ""
  | x :: xs => xs.foldl (fun acc y => acc ++ sep ++ y) x

/-- Model of Python s.startswith(pat). -/
def pyStartsWith (s pat : String) : Bool := pat.data.isPrefixOf s.data

/-- Model of Python s.endswith(pat). -/
def pyEndsWith (s pat : String) : Bool := pat.data.isSuffixOf s.data

/-- The character set stripped by rstrip in the pubinfo builder. -/
def stripSet : List Char := [' ', ';']

/-- Model of Python s.rstrip(sc) for the two character set of stripSet. -/
def pyRstripSemi (s : String) : String :=
  String.mk ((s.data.reverse.dropWhile (fun c => stripSet.contains c)).reverse)

/-- Python truthiness of an optional string value: None and the empty string are falsy. -/
def pyTruthy (o : Option String) : Bool := o.getD "" != ""

/-- Python truthiness of an optional list value: None and the empty list are falsy. -/
def pyTruthyList {α : Type} (o : Option (List α)) : Bool := !(o.getD []).isEmpty

/-- Model of Python s.replace(c, r) for a single character pattern c. -/
def pyReplaceChar : List Char → Char → List Char → List Char
  | [], _, _ => []
  | x :: xs, c, r => (if x = c then r else [x]) ++ pyReplaceChar xs c r

/-- The character level composition of the four replace calls of escape_literal. -/
def escChars (l : List Char) : List Char :=
  pyReplaceChar (pyReplaceChar (pyReplaceChar (pyReplaceChar
    l '\\' ['\\', '\\']) '"' ['\\', '"']) '\n' ['\\', 'n']) '\r' ['\\', 'r']

/-- escape_literal from the source: backslash, double quote, newline and
carriage return are replaced by their two character escapes, backslash first. -/
def escape_literal (s : String) : String := String.mk (escChars s.data)

/-- make_uri from the source. -/
def make_uri (value : String) (pfx : Option String) : String :=
  if pyStartsWith value "http://" || pyStartsWith value "https://" then
    "<" ++ value ++ ">"
  else if pyTruthy pfx then
    pfx.getD "" ++ ":" ++ value
  else
    "<" ++ value ++ ">"

/-- make_literal from the source. -/
def make_literal (value : String) (datatype : Option String) (lang : Option String) : String :=
  let escaped := escape_literal value
  if pyTruthy datatype then "\"" ++ escaped ++ "\"^^" ++ datatype.getD ""
  else if pyTruthy lang then "\"" ++ escaped ++ "\"@" ++ lang.getD ""
  else "\"" ++ escaped ++ "\""

/-- The is_part_of record read from the configuration: a uri and an optional label. -/
structure IsPartOf where
  uri : String
  label : Option String

/-- The thirteen parameters of generate_pubinfo_graph, bundled. -/
structure PubinfoArgs where
  nanopub_uri : String
  subPfx : String
  creator_orcid : String
  creator_name : String
  label : String
  template_uri : Option String
  provenance_template_uri : Option String
  pubinfo_template_uris : Option (List String)
  nanopub_types : Option (List String)
  introduces_uri : Option String
  wikidata_labels : Option (List (String × String))
  supersedes : Option String
  is_part_of : Option IsPartOf

/-- A hasLabelFromApi annotation line, used for Wikidata labels and the
is_part_of label in the pubinfo graph. -/
def apiLabelLine (u lbl : String) : String :=
  "  <" ++ u ++ "> nt:hasLabelFromApi " ++ make_literal lbl none none ++ " ."

/-- The creator name annotation line of the pubinfo graph. -/
def creatorNameLine (orcid name : String) : String :=
  "  orcid:" ++ orcid ++ " foaf:name " ++ make_literal name none none ++ " ."

/-- The comma joined nanopub type URI list. -/
def typesStr (ts : List String) : String :=
  pyJoin ", " (ts.map (fun t => "<" ++ t ++ ">"))

/-- The comma and newline joined pubinfo template URI list. -/
def templatesStr (ts : List String) : String :=
  pyJoin ",\n      " (ts.map (fun t => "<" ++ t ++ ">"))

/-- The final template reference line appended when template_uri is truthy. -/
def templateLine (a : PubinfoArgs) : String :=
  "    nt:wasCreatedFromTemplate <" ++ a.template_uri.getD "" ++ ">" ++ " ."

/-- The three unconditional opening lines on the this: subject: creation
timestamp, creator and license. -/
def thisBase (a : PubinfoArgs) (timestamp : String) : List String :=
  ["  this: dct:created \"" ++ timestamp ++ "\"^^xsd:dateTime" ++ " ;",
   "    dct:creator orcid:" ++ a.creator_orcid ++ " ;",
   "    dct:license <https://creativecommons.org/licenses/by/4.0/> ;"]

/-- The optional middle lines on the this: subject: type list, introduces,
supersedes and isPartOf, each present when its argument is truthy. -/
def thisOptMeta (a : PubinfoArgs) : List String :=
  (if pyTruthyList a.nanopub_types then
    ["    npx:hasNanopubType " ++ typesStr (a.nanopub_types.getD []) ++ " ;"] else [])
  ++ (if pyTruthy a.introduces_uri then
    ["    npx:introduces <" ++ a.introduces_uri.getD "" ++ ">" ++ " ;"] else [])
  ++ (if pyTruthy a.supersedes then
    ["    npx:supersedes <" ++ a.supersedes.getD "" ++ ">" ++ " ;"] else [])
  ++ (match a.is_part_of with
      | none => []
      | some ipo =>
        if ipo.uri != "" then
          ["    <http://purl.org/dc/terms/isPartOf> <" ++ ipo.uri ++ ">" ++ " ;"] else [])

/-- The fixed created-at tool line. -/
def createdAtLine : String := "    npx:wasCreatedAt <https://nanodash.knowledgepixels.com/> ;"

/-- The label line on the this: subject. -/
def labelLine (a : PubinfoArgs) : String :=
  "    rdfs:label " ++ make_literal a.label none none ++ " ;"

/-- The provenance template line on the this: subject. -/
def provLine (a : PubinfoArgs) : String :=
  "    nt:wasCreatedFromProvenanceTemplate <" ++ a.provenance_template_uri.getD "" ++ ">" ++ " ;"

/-- The pubinfo template list line on the this: subject. -/
def plistLine (a : PubinfoArgs) : String :=
  "    nt:wasCreatedFromPubinfoTemplate " ++ templatesStr (a.pubinfo_template_uris.getD []) ++ " ;"

/-- The metadata lines on the this: subject, before terminator fixing:
creation timestamp, creator, license, then the optional type list,
introduces, supersedes and isPartOf lines, then the created-at tool URI,
the label, and the optional provenance and pubinfo template lines. -/
def thisLines (a : PubinfoArgs) (timestamp : String) : List String :=
  thisBase a timestamp ++ thisOptMeta a ++ [createdAtLine, labelLine a]
  ++ (if pyTruthy a.provenance_template_uri then [provLine a] else [])
  ++ (if pyTruthyList a.pubinfo_template_uris then [plistLine a] else [])

/-- The last line of the this: subject before terminator fixing: the
pubinfo template list when present, else the provenance template line
when present, else the label line. -/
def thisLast (a : PubinfoArgs) : String :=
  if pyTruthyList a.pubinfo_template_uris then plistLine a
  else if pyTruthy a.provenance_template_uri then provLine a
  else labelLine a

/-- The opening part of the pubinfo graph: the graph name header, the
Wikidata label lines, the is_part_of label line and the creator name
line, each optional section followed by a blank line. -/
def headSection (a : PubinfoArgs) : List String :=
  [a.subPfx ++ ":pubinfo \x7b"]
  ++ (if pyTruthyList a.wikidata_labels then
        ((a.wikidata_labels.getD []).map (fun p => apiLabelLine p.1 p.2)) ++ [""] else [])
  ++ (match a.is_part_of with
      | none => []
      | some ipo =>
        if (ipo.label.getD "") != "" then [apiLabelLine ipo.uri (ipo.label.getD ""), ""] else [])
  ++ [creatorNameLine a.creator_orcid a.creator_name, ""]

/-- The patch applied to the previous last line when a custom template URI
is present: strip trailing spaces and semicolons, then restore a semicolon
unless the line already ends the statement. -/
def patchSemi (l : String) : String :=
  let l2 := pyRstripSemi l
  if pyEndsWith l2 " ." then l2 else l2 ++ " ;"

/-- The rewrite of the final semicolon into a period when no custom
template URI is present. -/
def dotTerm (l : String) : String := pyRstripSemi l ++ " ."

/-- Apply a function to the last element of a list, as the Python code
does by assigning to the last index. -/
def modifyLast (f : String → String) : List String → List String
  | [] => []
  | [x] => [f x]
  | x :: y :: rest => x :: modifyLast f (y :: rest)

/-- The full line list of the pubinfo graph, terminator fixing included. -/
def pubinfo_lines (a : PubinfoArgs) (timestamp : String) : List String :=
  (if pyTruthy a.template_uri then
    modifyLast patchSemi (headSection a ++ thisLines a timestamp) ++ [templateLine a]
  else
    modifyLast dotTerm (headSection a ++ thisLines a timestamp)) ++ ["\x7d"]

/-- The metadata block on the this: subject after terminator fixing. -/
def thisFixed (a : PubinfoArgs) (timestamp : String) : List String :=
  if pyTruthy a.template_uri then
    modifyLast patchSemi (thisLines a timestamp) ++ [templateLine a]
  else
    modifyLast dotTerm (thisLines a timestamp)

/-- generate_pubinfo_graph from the source, with the ambient timestamp
passed explicitly. -/
def generate_pubinfo_graph (a : PubinfoArgs) (timestamp : String) : String :=
  pyJoin "\n" (pubinfo_lines a timestamp)

/-- generate_provenance_graph from the source. -/
def generate_provenance_graph (subPfx creator_orcid : String) : String :=
  subPfx ++ ":provenance \x7b\n  " ++ subPfx ++
    ":assertion prov:wasAttributedTo orcid:" ++ creator_orcid ++ " .\n\x7d"

/-- generate_head_graph from the source. -/
def generate_head_graph (subPfx : String) : String :=
  subPfx ++ ":Head \x7b\n  this: a np:Nanopublication ;\n    np:hasAssertion " ++ subPfx ++
    ":assertion ;\n    np:hasProvenance " ++ subPfx ++
    ":provenance ;\n    np:hasPublicationInfo " ++ subPfx ++ ":pubinfo .\n\x7d"

/-- The fixed table of well known ontology short names, in source order. -/
def PREFIXES : List (String × String) :=
  [("np", "http://www.nanopub.org/nschema#"),
   ("dct", "http://purl.org/dc/terms/"),
   ("rdf", "http://www.w3.org/1999/02/22-rdf-syntax-ns#"),
   ("rdfs", "http://www.w3.org/2000/01/rdf-schema#"),
   ("xsd", "http://www.w3.org/2001/XMLSchema#"),
   ("prov", "http://www.w3.org/ns/prov#"),
   ("foaf", "http://xmlns.com/foaf/0.1/"),
   ("orcid", "https://orcid.org/"),
   ("npx", "http://purl.org/nanopub/x/"),
   ("nt", "https://w3id.org/np/o/ntemplate/"),
   ("cito", "http://purl.org/spar/cito/"),
   ("fabio", "http://purl.org/spar/fabio/"),
   ("schema", "https://schema.org/"),
   ("skos", "http://www.w3.org/2004/02/skos/core#"),
   ("hycl", "http://purl.org/petapico/o/hycl#"),
   ("aida", "http://purl.org/aida/"),
   ("wd", "http://www.wikidata.org/entity/"),
   ("wdt", "http://www.wikidata.org/prop/direct/"),
   ("dcmitype", "http://purl.org/dc/dcmitype/"),
   ("fdof", "https://w3id.org/fdof/ontology#"),
   ("fair", "https://w3id.org/fair/fip/terms/"),
   ("dcat", "https://www.w3.org/ns/dcat#"),
   ("geo", "http://www.opengis.net/ont/geosparql#"),
   ("pico", "http://data.cochrane.org/ontologies/pico/")]

/-- The recognized keys of the configuration record read by generate. -/
structure Config where
  creator_orcid : Option String
  creator_name : Option String
  template_uri : Option String
  supersedes : Option String
  is_part_of : Option IsPartOf
  label : Option String

/-- The mutable per document state of a NanopubGenerator instance. -/
structure GenState where
  config : Config
  nanopub_uri : String
  subPfx : String
  usedPfxs : List String
  wikidata_labels : List (String × String)
  introduces_uri : Option String
  nanopub_types : List String

/-- Insertion into a sorted list of strings, for the model of sorted(). -/
def insertSorted (x : String) : List String → List String
  | [] => [x]
  | y :: ys => if x ≤ y then x :: y :: ys else y :: insertSorted x ys

/-- Model of Python sorted() on a list of strings. -/
def pySorted (l : List String) : List String := l.foldr insertSorted []

/-- get_prefixes_block from the source: the two document bindings followed
by the used short names found in the fixed table, in sorted order. -/
def get_prefixes_block (st : GenState) : String :=
  pyJoin "\n"
    (["@prefix this: <" ++ st.nanopub_uri ++ "> .",
      "@prefix " ++ st.subPfx ++ ": <" ++ st.nanopub_uri ++ "/> ."]
     ++ (((pySorted st.usedPfxs).filter (fun p => (PREFIXES.lookup p).isSome)).map
          (fun p => "@prefix " ++ p ++ ": <" ++ (PREFIXES.lookup p).getD "" ++ "> .")))

/-- The fixed provenance template URI of the generator class. -/
def NanopubGenerator.PROVENANCE_TEMPLATE : String :=
  "https://w3id.org/np/RA7lSq6MuK_TIC6JMSHvLtee3lpLoZDOqLJCLXevnrPoU"

/-- The two fixed pubinfo template URIs of the generator class. -/
def NanopubGenerator.PUBINFO_TEMPLATES : List String :=
  ["https://w3id.org/np/RA0J4vUn_dekg-U1kK3AOEt02p9mT2WO03uGxLDec1jLw",
   "https://w3id.org/np/RAukAcWHRDlkqxk7H2XNSegc1WnHI569INvNr-xdptDGI"]

/-- The constructor of NanopubGenerator, with the freshly generated
document URI passed explicitly. -/
def NanopubGenerator.init (config : Config) (uri : String) : GenState :=
  ⟨config, uri, "sub",
   ["np", "dct", "rdf", "rdfs", "xsd", "prov", "foaf", "orcid", "npx", "nt"],
   [], none, []⟩

/-- Assignment into a Python dict modelled as an insertion ordered
association list: an existing key keeps its position, a new key is
appended at the end. -/
def dictSet : List (String × String) → String → String → List (String × String)
  | [], k, v => [(k, v)]
  | (k2, v2) :: rest, k, v =>
    if k2 = k then (k, v) :: rest else (k2, v2) :: dictSet rest k v

/-- add_wikidata_label from the source: entries outside the Wikidata
entity namespace are silently dropped. -/
def NanopubGenerator.add_wikidata_label (st : GenState) (uri lbl : String) : GenState :=
  if pyStartsWith uri "http://www.wikidata.org/entity/" then
    { st with wikidata_labels := dictSet st.wikidata_labels uri lbl }
  else st

/-- The argument record that NanopubGenerator.generate passes to
generate_pubinfo_graph, as a function of the pre state and the
assertion extension. -/
def NanopubGenerator.generateArgs (st : GenState) (ext : GenState → GenState × String) :
    PubinfoArgs :=
  ⟨(ext st).1.nanopub_uri, (ext st).1.subPfx,
   st.config.creator_orcid.getD "0000-0000-0000-0000",
   st.config.creator_name.getD "Unknown",
   (ext st).1.config.label.getD "Nanopublication",
   st.config.template_uri,
   some NanopubGenerator.PROVENANCE_TEMPLATE,
   some NanopubGenerator.PUBINFO_TEMPLATES,
   (if (ext st).1.nanopub_types.isEmpty then none else some (ext st).1.nanopub_types),
   (ext st).1.introduces_uri,
   (if (ext st).1.wikidata_labels.isEmpty then none else some (ext st).1.wikidata_labels),
   st.config.supersedes,
   st.config.is_part_of⟩

/-- NanopubGenerator.generate from the source. The assertion extension is
any function from the generator state to a mutated state and the
assertion graph text; creator data and the optional template, supersedes
and is_part_of values are read before invoking the extension, and the
label after, exactly as the source does. -/
def NanopubGenerator.generate (st : GenState) (ext : GenState → GenState × String)
    (timestamp : String) : String :=
  let creator_orcid := st.config.creator_orcid.getD "0000-0000-0000-0000"
  let creator_name := st.config.creator_name.getD "Unknown"
  let template_uri := st.config.template_uri
  let supersedes := st.config.supersedes
  let is_part_of := st.config.is_part_of
  let st2 := (ext st).1
  let assertion := (ext st).2
  let lbl := st2.config.label.getD "Nanopublication"
  let pfxBlock := get_prefixes_block st2
  let head := generate_head_graph st2.subPfx
  let provenance := generate_provenance_graph st2.subPfx creator_orcid
  let pubinfo := generate_pubinfo_graph
    ⟨st2.nanopub_uri, st2.subPfx, creator_orcid, creator_name, lbl, template_uri,
     some NanopubGenerator.PROVENANCE_TEMPLATE, some NanopubGenerator.PUBINFO_TEMPLATES,
     (if st2.nanopub_types.isEmpty then none else some st2.nanopub_types),
     st2.introduces_uri,
     (if st2.wikidata_labels.isEmpty then none else some st2.wikidata_labels),
     supersedes, is_part_of⟩ timestamp
  pfxBlock ++ "\n\n" ++ head ++ "\n\n" ++ assertion ++ "\n\n" ++ provenance ++
    "\n\n" ++ pubinfo ++ "\n"

/-- The per field test of validate_required_fields: a field is missing if
it is absent from the configuration or its value is falsy. -/
def badField (config : List (String × String)) (f : String) : Bool :=
  match config.lookup f with
  | none => true
  | some v => v == ""

/-- validate_required_fields from the source, over a configuration with
string values, returning the raised ValueError as an error value. -/
def validate_required_fields (config : List (String × String)) (required : List String) :
    Except String Unit :=
  let missing := required.filter (badField config)
  if missing.isEmpty then Except.ok ()
  else Except.error ("Missing required fields: " ++ pyJoin ", " missing)

/-- Addition on 32 bit words, as natural numbers reduced modulo 2 to the 32. -/
def add32 (a b : Nat) : Nat := (a + b) % 4294967296

/-- Right rotation of a 32 bit word. -/
def rotr (n x : Nat) : Nat := (x >>> n) ||| ((x <<< (32 - n)) % 4294967296)

/-- Bitwise complement on 32 bits. -/
def bnot32 (x : Nat) : Nat := x ^^^ 4294967295

/-- The big sigma 0 function of the SHA-256 compression. -/
def bsig0 (x : Nat) : Nat := rotr 2 x ^^^ rotr 13 x ^^^ rotr 22 x

/-- The big sigma 1 function of the SHA-256 compression. -/
def bsig1 (x : Nat) : Nat := rotr 6 x ^^^ rotr 11 x ^^^ rotr 25 x

/-- The small sigma 0 function of the SHA-256 message schedule. -/
def ssig0 (x : Nat) : Nat := rotr 7 x ^^^ rotr 18 x ^^^ (x >>> 3)

/-- The small sigma 1 function of the SHA-256 message schedule. -/
def ssig1 (x : Nat) : Nat := rotr 17 x ^^^ rotr 19 x ^^^ (x >>> 10)

/-- The choice function of the SHA-256 compression. -/
def chFn (e f g : Nat) : Nat := (e &&& f) ^^^ (bnot32 e &&& g)

/-- The majority function of the SHA-256 compression. -/
def majFn (a b c : Nat) : Nat := (a &&& b) ^^^ (a &&& c) ^^^ (b &&& c)

/-- The sixty four round constants of SHA-256, written in decimal. -/
def K256 : List Nat :=
  [1116352408, 1899447441, 3049323471, 3921009573, 961987163, 1508970993,
   2453635748, 2870763221, 3624381080, 310598401, 607225278, 1426881987,
   1925078388, 2162078206, 2614888103, 3248222580, 3835390401, 4022224774,
   264347078, 604807628, 770255983, 1249150122, 1555081692, 1996064986,
   2554220882, 2821834349, 2952996808, 3210313671, 3336571891, 3584528711,
   113926993, 338241895, 666307205, 773529912, 1294757372, 1396182291,
   1695183700, 1986661051, 2177026350, 2456956037, 2730485921, 2820302411,
   3259730800, 3345764771, 3516065817, 3600352804, 4094571909, 275423344,
   430227734, 506948616, 659060556, 883997877, 958139571, 1322822218,
   1537002063, 1747873779, 1955562222, 2024104815, 2227730452, 2361852424,
   2428436474, 2756734187, 3204031479, 3329325298]

/-- The eight word working state of SHA-256. -/
structure H8 where
  a : Nat
  b : Nat
  c : Nat
  d : Nat
  e : Nat
  f : Nat
  g : Nat
  h : Nat

/-- The initial hash value of SHA-256, written in decimal. -/
def initH : H8 :=
  ⟨1779033703, 3144134277, 1013904242, 2773480762,
   1359893119, 2600822924, 528734635, 1541459225⟩

/-- The big endian eight byte encoding of the message bit length. -/
def lenBytes64 (n : Nat) : List Nat :=
  [(n >>> 56) &&& 255, (n >>> 48) &&& 255, (n >>> 40) &&& 255, (n >>> 32) &&& 255,
   (n >>> 24) &&& 255, (n >>> 16) &&& 255, (n >>> 8) &&& 255, n &&& 255]

/-- SHA-256 padding: a single one bit, zeros to fifty six modulo sixty
four, then the bit length. -/
def padMsg (msg : List Nat) : List Nat :=
  msg ++ [128] ++ List.replicate ((119 - msg.length % 64) % 64) 0 ++ lenBytes64 (8 * msg.length)

/-- Split a byte list into sixty four byte blocks. The fuel argument of
the worker is the list length, which bounds the recursion depth since
every step drops at least one element of a nonempty list. -/
def chunksAux : Nat → List Nat → List (List Nat)
  | _, [] => []
  | 0, _ => []
  | fuel + 1, l => l.take 64 :: chunksAux fuel (l.drop 64)

/-- Split a byte list into sixty four byte blocks. -/
def chunks64 (l : List Nat) : List (List Nat) := chunksAux l.length l

/-- The sixteen big endian words of one block. -/
def toWords16 (block : List Nat) : List Nat :=
  (List.range 16).map (fun i =>
    ((block.getD (4 * i) 0) <<< 24) + ((block.getD (4 * i + 1) 0) <<< 16) +
    ((block.getD (4 * i + 2) 0) <<< 8) + block.getD (4 * i + 3) 0)

/-- One extension step of the SHA-256 message schedule. -/
def nextW (w : List Nat) : Nat :=
  let n := w.length
  add32 (add32 (ssig1 (w.getD (n - 2) 0)) (w.getD (n - 7) 0))
        (add32 (ssig0 (w.getD (n - 15) 0)) (w.getD (n - 16) 0))

/-- The sixty four word message schedule of one block. -/
def schedule (block : List Nat) : List Nat :=
  (List.range 48).foldl (fun w _ => w ++ [nextW w]) (toWords16 block)

/-- One round of the SHA-256 compression, with the round constant and
schedule word already combined. -/
def roundFn (st : H8) (kw : Nat) : H8 :=
  let t1 := add32 st.h (add32 (bsig1 st.e) (add32 (chFn st.e st.f st.g) kw))
  let t2 := add32 (bsig0 st.a) (majFn st.a st.b st.c)
  ⟨add32 t1 t2, st.a, st.b, st.c, add32 st.d t1, st.e, st.f, st.g⟩

/-- Compression of a single block into the running hash value. -/
def compressBlock (h0 : H8) (block : List Nat) : H8 :=
  let ws := schedule block
  let s := (List.range 64).foldl (fun st i => roundFn st (add32 (K256.getD i 0) (ws.getD i 0))) h0
  ⟨add32 h0.a s.a, add32 h0.b s.b, add32 h0.c s.c, add32 h0.d s.d,
   add32 h0.e s.e, add32 h0.f s.f, add32 h0.g s.g, add32 h0.h s.h⟩

/-- The eight word SHA-256 digest of a byte list. -/
def sha256words (msg : List Nat) : List Nat :=
  let fin := (chunks64 (padMsg msg)).foldl compressBlock initH
  [fin.a, fin.b, fin.c, fin.d, fin.e, fin.f, fin.g, fin.h]

/-- One lowercase hexadecimal digit. -/
def hexDigit : Nat → Char
  | 0 => '0' | 1 => '1' | 2 => '2' | 3 => '3' | 4 => '4' | 5 => '5' | 6 => '6' | 7 => '7'
  | 8 => '8' | 9 => '9' | 10 => 'a' | 11 => 'b' | 12 => 'c' | 13 => 'd' | 14 => 'e' | 15 => 'f'
  | _ => '0'

/-- The eight hexadecimal digits of a 32 bit word, big endian. -/
def wordHex (w : Nat) : List Char :=
  [hexDigit ((w >>> 28) &&& 15), hexDigit ((w >>> 24) &&& 15),
   hexDigit ((w >>> 20) &&& 15), hexDigit ((w >>> 16) &&& 15),
   hexDigit ((w >>> 12) &&& 15), hexDigit ((w >>> 8) &&& 15),
   hexDigit ((w >>> 4) &&& 15), hexDigit (w &&& 15)]

/-- The sixty four character hexadecimal digest of a byte list, as
hexdigest produces it. -/
def sha256hex (msg : List Nat) : List Char :=
  ((sha256words msg).map wordHex).flatten

/-- generate_nanopub_uri from the source: the first forty three
hexadecimal characters of the SHA-256 digest of the freshly generated
unique value, appended to the fixed prefix. The unique value produced by
uuid4 is passed as an explicit string, and its byte encoding is modelled
character by character, which agrees with encode() on the ASCII strings
uuid4 produces. -/
def generate_nanopub_uri (uuidStr : String) : String :=
  "https://w3id.org/np/RA" ++ String.mk ((sha256hex (uuidStr.data.map Char.toNat)).take 43)

/-- A line of the pubinfo graph carrying a hasLabelFromApi annotation
starts with two spaces and an opening angle bracket; no other line kind
does. -/
def isLabelLine (l : String) : Bool := pyStartsWith l "  <"

/-- A character list is well escaped when every backslash is followed by
one of the four escape letters and, outside escapes, no raw double
quote, newline or carriage return occurs. -/
def wellEscaped : List Char → Bool
  | [] => true
  | c :: rest =>
    if c = '\\' then
      match rest with
      | [] => false
      | d :: rest2 => (d == '\\' || d == '"' || d == 'n' || d == 'r') && wellEscaped rest2
    else
      (!(c == '"') && !(c == '\n') && !(c == '\r')) && wellEscaped rest

/-- The per character expansion realized by the four replace calls of
escape_literal taken together. -/
def escMap (c : Char) : List Char :=
  if c = '\\' then ['\\', '\\']
  else if c = '"' then ['\\', '"']
  else if c = '\n' then ['\\', 'n']
  else if c = '\r' then ['\\', 'r']
  else [c]

theorem strData_append (a b : String) : (a ++ b).data = a.data ++ b.data := rfl

theorem strExt {a b : String} (h : a.data = b.data) : a = b :=
  congrArg String.mk h

theorem strAssoc (a b c : String) : a ++ b ++ c = a ++ (b ++ c) := by
  apply strExt
  simp [strData_append]

theorem joinFoldl_shift (sep : String) (l : List String) (a b : String) :
    l.foldl (fun acc y => acc ++ sep ++ y) (a ++ b) =
      a ++ l.foldl (fun acc y => acc ++ sep ++ y) b := by
  induction l generalizing b with
  | nil => rfl
  | cons x xs ih =>
    simp only [List.foldl_cons]
    rw [strAssoc (a ++ b) sep x, strAssoc a b (sep ++ x), ← strAssoc b sep x, ih]

theorem pyJoin_cons (sep x : String) (xs : List String) (h : xs ≠ []) :
    pyJoin sep (x :: xs) = x ++ sep ++ pyJoin sep xs := by
  cases xs with
  | nil => exact absurd rfl h
  | cons y ys =>
    show (y :: ys).foldl (fun acc z => acc ++ sep ++ z) x =
      x ++ sep ++ ys.foldl (fun acc z => acc ++ sep ++ z) y
    simp only [List.foldl_cons]
    rw [show x ++ sep ++ y = (x ++ sep) ++ y from rfl, joinFoldl_shift, strAssoc]

theorem pyJoin_append (sep : String) (xs ys : List String) (hx : xs ≠ []) (hy : ys ≠ []) :
    pyJoin sep (xs ++ ys) = pyJoin sep xs ++ sep ++ pyJoin sep ys := by
  induction xs with
  | nil => exact absurd rfl hx
  | cons x xs ih =>
    cases xs with
    | nil =>
      simp only [List.nil_append, List.cons_append]
      rw [pyJoin_cons sep x ys hy]
      rfl
    | cons z zs =>
      have h1 : (z :: zs) ++ ys ≠ [] := by simp
      rw [List.cons_append, pyJoin_cons sep x ((z :: zs) ++ ys) h1,
        ih (by simp), pyJoin_cons sep x (z :: zs) (by simp)]
      apply strExt
      simp [strData_append]

theorem strGetLast_append (a b : String) (h : b.data ≠ []) :
    (a ++ b).data.getLast? = b.data.getLast? := by
  obtain ⟨c, hc⟩ : ∃ c, b.data.getLast? = some c := by
    cases hq : b.data.getLast? with
    | none => exact absurd (List.getLast?_eq_none_iff.mp hq) h
    | some c => exact ⟨c, rfl⟩
  simp [strData_append, List.getLast?_append, hc]

theorem pyJoin_getLast (sep : String) (ls : List String) (c : Char)
    (h : ls ≠ []) (hall : ∀ l ∈ ls, l.data.getLast? = some c) :
    (pyJoin sep ls).data.getLast? = some c := by
  induction ls with
  | nil => exact absurd rfl h
  | cons x xs ih =>
    cases xs with
    | nil => simpa using hall x (by simp)
    | cons y ys =>
      rw [pyJoin_cons sep x (y :: ys) (by simp)]
      have h2 : (pyJoin sep (y :: ys)).data.getLast? = some c :=
        ih (by simp) (fun l hl => hall l (by simp [hl]))
      rw [strGetLast_append]
      · exact h2
      · intro hnil
        rw [hnil] at h2
        simp at h2

theorem pyJoin_concat_getLast (sep : String) (xs : List String) (e : String)
    (he : e.data ≠ []) :
    (pyJoin sep (xs ++ [e])).data.getLast? = e.data.getLast? := by
  cases xs with
  | nil => rfl
  | cons x xs =>
    rw [pyJoin_append sep (x :: xs) [e] (by simp) (by simp)]
    show ((pyJoin sep (x :: xs) ++ sep) ++ pyJoin sep [e]).data.getLast? = _
    exact strGetLast_append _ e he

theorem strHead_append (a b : String) :
    (a ++ b).data.head? = a.data.head?.or b.data.head? := by
  simp [strData_append, List.head?_append]

theorem pyJoin_head_of (sep x : String) (xs : List String) (c : Char)
    (h : x.data.head? = some c) :
    (pyJoin sep (x :: xs)).data.head? = some c := by
  cases xs with
  | nil => exact h
  | cons y ys =>
    rw [pyJoin_cons sep x (y :: ys) (by simp)]
    show ((x ++ sep) ++ pyJoin sep (y :: ys)).data.head? = some c
    simp [strHead_append, h]

theorem pyEndsWith_of_append (a t : String) : pyEndsWith (a ++ t) t = true := by
  unfold pyEndsWith
  rw [strData_append]
  exact List.isSuffixOf_iff_suffix.mpr (List.suffix_append _ _)

theorem pyEndsWith_dot_false (s : String) (c : Char)
    (h : s.data.getLast? = some c) (hc : c ≠ '.') :
    pyEndsWith s " ." = false := by
  unfold pyEndsWith
  cases hb : (" .".data.isSuffixOf s.data) with
  | false => rfl
  | true =>
    exfalso
    obtain ⟨t, ht⟩ := List.isSuffixOf_iff_suffix.mp hb
    rw [← ht, show (" .".data) = [' ', '.'] from rfl,
      show t ++ [' ', '.'] = (t ++ [' ']) ++ ['.'] by simp,
      List.getLast?_concat] at h
    exact hc (Option.some.inj h).symm

theorem modifyLast_concat (f : String → String) (xs : List String) (e : String) :
    modifyLast f (xs ++ [e]) = xs ++ [f e] := by
  induction xs with
  | nil => rfl
  | cons x xs ih =>
    cases xs with
    | nil => rfl
    | cons y ys =>
      simp only [List.cons_append] at ih ⊢
      simp only [modifyLast]
      rw [ih]

theorem modifyLast_append (f : String → String) (xs ys : List String) (hy : ys ≠ []) :
    modifyLast f (xs ++ ys) = xs ++ modifyLast f ys := by
  rcases List.eq_nil_or_concat ys with h | ⟨zs, e, h⟩
  · exact absurd h hy
  · simp only [List.concat_eq_append] at h
    subst h
    rw [← List.append_assoc, modifyLast_concat, modifyLast_concat, List.append_assoc]

theorem pyRstripSemi_append (core : String) (c : Char)
    (hc : core.data.getLast? = some c) (hb : stripSet.contains c = false) :
    pyRstripSemi (core ++ " ;") = core := by
  apply strExt
  show ((core ++ " ;").data.reverse.dropWhile (fun c => stripSet.contains c)).reverse = core.data
  obtain ⟨ys, hys⟩ := List.getLast?_eq_some_iff.mp hc
  rw [strData_append, hys, show (" ;".data) = [' ', ';'] from rfl]
  rw [show (ys ++ [c]) ++ [' ', ';'] = ys ++ [c, ' ', ';'] by simp]
  rw [List.reverse_append]
  show (List.dropWhile _ (';' :: ' ' :: c :: ys.reverse)).reverse = ys ++ [c]
  rw [List.dropWhile_cons_of_pos (by decide), List.dropWhile_cons_of_pos (by decide),
    List.dropWhile_cons_of_neg (by simpa using hb)]
  simp

theorem pyReplaceChar_append (l1 l2 : List Char) (c : Char) (r : List Char) :
    pyReplaceChar (l1 ++ l2) c r = pyReplaceChar l1 c r ++ pyReplaceChar l2 c r := by
  induction l1 with
  | nil => rfl
  | cons x xs ih => simp [pyReplaceChar, ih]

theorem escChars_cons (x : Char) (xs : List Char) :
    escChars (x :: xs) = escMap x ++ escChars xs := by
  unfold escChars
  rw [show pyReplaceChar (x :: xs) '\\' ['\\', '\\'] =
      (if x = '\\' then ['\\', '\\'] else [x]) ++ pyReplaceChar xs '\\' ['\\', '\\'] from rfl]
  rw [pyReplaceChar_append, pyReplaceChar_append, pyReplaceChar_append]
  congr 1
  by_cases h1 : x = '\\'
  · subst h1
    simp [pyReplaceChar, escMap]
  · by_cases h2 : x = '"'
    · subst h2
      simp [pyReplaceChar, escMap]
    · by_cases h3 : x = '\n'
      · subst h3
        simp [pyReplaceChar, escMap]
      · by_cases h4 : x = '\r'
        · subst h4
          simp [pyReplaceChar, escMap]
        · simp [pyReplaceChar, escMap, h1, h2, h3, h4]

theorem escMap_no_raw (c x : Char) (hx : x ∈ escMap c) : x ≠ '\n' ∧ x ≠ '\r' := by
  unfold escMap at hx
  by_cases h1 : c = '\\'
  · subst h1
    simp at hx
    simp [hx]
  · by_cases h2 : c = '"'
    · subst h2
      simp [h1] at hx
      rcases hx with h | h <;> simp [h]
    · by_cases h3 : c = '\n'
      · subst h3
        simp [h1, h2] at hx
        rcases hx with h | h <;> simp [h]
      · by_cases h4 : c = '\r'
        · subst h4
          simp [h1, h2, h3] at hx
          rcases hx with h | h <;> simp [h]
        · simp [h1, h2, h3, h4] at hx
          subst hx
          exact ⟨h3, h4⟩

theorem escChars_no_raw (l : List Char) (x : Char) (hx : x ∈ escChars l) :
    x ≠ '\n' ∧ x ≠ '\r' := by
  induction l with
  | nil => simp [escChars, pyReplaceChar] at hx
  | cons c cs ih =>
    rw [escChars_cons] at hx
    rcases List.mem_append.mp hx with h | h
    · exact escMap_no_raw c x h
    · exact ih h

theorem escChars_contains_nl (l : List Char) : (escChars l).contains '\n' = false := by
  have h : ¬ ('\n' ∈ escChars l) := fun hx => (escChars_no_raw l '\n' hx).1 rfl
  simpa using h

theorem escChars_contains_cr (l : List Char) : (escChars l).contains '\r' = false := by
  have h : ¬ ('\r' ∈ escChars l) := fun hx => (escChars_no_raw l '\r' hx).2 rfl
  simpa using h

theorem wellEscaped_cons (c : Char) (rest : List Char) :
    wellEscaped (c :: rest) =
      if c = '\\' then
        match rest with
        | [] => false
        | d :: rest2 => (d == '\\' || d == '"' || d == 'n' || d == 'r') && wellEscaped rest2
      else (!(c == '"') && !(c == '\n') && !(c == '\r')) && wellEscaped rest := by
  cases rest <;> rfl

theorem wellEscaped_escMap (x : Char) (rest : List Char) :
    wellEscaped (escMap x ++ rest) = wellEscaped rest := by
  unfold escMap
  by_cases h1 : x = '\\'
  · subst h1
    simp [wellEscaped]
  · by_cases h2 : x = '"'
    · subst h2
      simp [wellEscaped]
    · by_cases h3 : x = '\n'
      · subst h3
        simp [wellEscaped]
      · by_cases h4 : x = '\r'
        · subst h4
          simp [wellEscaped]
        · simp only [h1, h2, h3, h4, if_false, List.cons_append, List.nil_append,
            ite_false, List.singleton_append]
          rw [wellEscaped_cons, if_neg h1]
          simp [h2, h3, h4]

theorem wellEscaped_escChars (l : List Char) : wellEscaped (escChars l) = true := by
  induction l with
  | nil => rfl
  | cons x xs ih => rw [escChars_cons, wellEscaped_escMap, ih]

/-- C5: for every input string, escape_literal replaces backslash, double
quote, newline and carriage return by their two character escaped forms,
backslash first, so that the result is well escaped, contains no raw
newline and no raw carriage return, and every literal built from it by
make_literal wraps exactly this escaped text in double quotes. -/
theorem claim_c5_escape_literal (s : String) :
    wellEscaped (escape_literal s).data = true
    ∧ (escape_literal s).data.contains '\n' = false
    ∧ (escape_literal s).data.contains '\r' = false
    ∧ ∀ dt lg : Option String, ∃ tail : String,
        make_literal s dt lg = "\"" ++ escape_literal s ++ "\"" ++ tail := by
  refine ⟨wellEscaped_escChars s.data, escChars_contains_nl s.data, escChars_contains_cr s.data, ?_⟩
  intro dt lg
  by_cases h1 : pyTruthy dt = true
  · refine ⟨"^^" ++ dt.getD "", ?_⟩
    simp only [make_literal, h1, if_true]
    apply strExt
    simp [strData_append]
  · by_cases h2 : pyTruthy lg = true
    · refine ⟨"@" ++ lg.getD "", ?_⟩
      simp only [make_literal, Bool.not_eq_true] at h1
      simp only [make_literal, h1, h2, if_true, Bool.false_eq_true, if_false]
      apply strExt
      simp [strData_append]
    · refine ⟨"", ?_⟩
      simp only [Bool.not_eq_true] at h1 h2
      simp only [make_literal, h1, h2, Bool.false_eq_true, if_false]
      apply strExt
      simp [strData_append]

/-- C6: make_literal escapes the value and wraps it in double quotes, then
appends a double caret and the datatype when a datatype is given, else an
at sign and the language tag when one is given, else nothing; when both
are given the datatype takes precedence and the language tag is not
emitted. -/
theorem claim_c6_make_literal (v : String) (dt lg : Option String) :
    (pyTruthy dt = true →
      make_literal v dt lg = "\"" ++ escape_literal v ++ "\"^^" ++ dt.getD "")
    ∧ (pyTruthy dt = false → pyTruthy lg = true →
      make_literal v dt lg = "\"" ++ escape_literal v ++ "\"@" ++ lg.getD "")
    ∧ (pyTruthy dt = false → pyTruthy lg = false →
      make_literal v dt lg = "\"" ++ escape_literal v ++ "\"") := by
  refine ⟨?_, ?_, ?_⟩
  · intro h
    simp only [make_literal, h, if_true]
  · intro h1 h2
    simp only [make_literal, h1, h2, Bool.false_eq_true, if_false, if_true]
  · intro h1 h2
    simp only [make_literal, h1, h2, Bool.false_eq_true, if_false]

/-- Witness for C6 at the example of the specification: a language tagged
literal with an inner double quote, and the datatype branch exercised at a
concrete datatype. -/
theorem claim_c6_witness :
    make_literal "a\"b" none (some "en") = "\"a\\\"b\"@en"
    ∧ make_literal "x" (some "xsd:int") (some "en") = "\"x\"^^xsd:int" := by
  constructor
  · have h := (claim_c6_make_literal "a\"b" none (some "en")).2.1 (by decide) (by decide)
    rw [h]
    decide
  · have h := (claim_c6_make_literal "x" (some "xsd:int") (some "en")).1 (by decide)
    rw [h]
    decide

/-- C7: make_uri wraps the value in angle brackets whenever it begins with
the http or https scheme, regardless of any supplied short name; otherwise
it joins a truthy short name and the value with a colon; otherwise it
wraps the value in angle brackets, matching the three concrete examples. -/
theorem claim_c7_make_uri (value : String) (pfx : Option String) :
    ((pyStartsWith value "http://" = true ∨ pyStartsWith value "https://" = true) →
      make_uri value pfx = "<" ++ value ++ ">")
    ∧ (pyStartsWith value "http://" = false → pyStartsWith value "https://" = false →
      pyTruthy pfx = true → make_uri value pfx = pfx.getD "" ++ ":" ++ value)
    ∧ (pyStartsWith value "http://" = false → pyStartsWith value "https://" = false →
      pyTruthy pfx = false → make_uri value pfx = "<" ++ value ++ ">")
    ∧ make_uri "http://example.org/x" none = "<http://example.org/x>"
    ∧ make_uri "x" (some "ex") = "ex:x"
    ∧ make_uri "x" none = "<x>" := by
  refine ⟨?_, ?_, ?_, by decide, by decide, by decide⟩
  · intro h
    rcases h with h | h <;> simp [make_uri, h]
  · intro h1 h2 h3
    simp [make_uri, h1, h2, h3]
  · intro h1 h2 h3
    simp [make_uri, h1, h2, h3]

/-- Witness for C7: the scheme test dominates a supplied short name at a
concrete https value. -/
theorem claim_c7_witness : make_uri "https://y" (some "ex") = "<https://y>" :=
  (claim_c7_make_uri "https://y" (some "ex")).1 (Or.inr (by decide))

/-- C4: validate_required_fields raises exactly when some required field is
absent from the configuration or has an empty value, the raised message
lists every missing field, and the test on a single field is absence or
emptiness of its value. -/
theorem claim_c4_validate (config : List (String × String)) (required : List String) :
    ((∃ f ∈ required, badField config f = true) ↔
      ∃ msg, validate_required_fields config required = Except.error msg)
    ∧ ((∃ f ∈ required, badField config f = true) →
      validate_required_fields config required =
        Except.error ("Missing required fields: " ++
          pyJoin ", " (required.filter (badField config))))
    ∧ (∀ f ∈ required, badField config f = true → f ∈ required.filter (badField config))
    ∧ (∀ f, badField config f = true ↔
        (config.lookup f = none ∨ config.lookup f = some "")) := by
  have hne : (∃ f ∈ required, badField config f = true) →
      (required.filter (badField config)).isEmpty = false := by
    rintro ⟨f, hf, hb⟩
    have hm : f ∈ required.filter (badField config) := List.mem_filter.mpr ⟨hf, hb⟩
    cases hq : required.filter (badField config) with
    | nil => rw [hq] at hm; simp at hm
    | cons a l => rfl
  refine ⟨⟨?_, ?_⟩, ?_, ?_, ?_⟩
  · intro h
    refine ⟨"Missing required fields: " ++ pyJoin ", " (required.filter (badField config)), ?_⟩
    simp [validate_required_fields, hne h]
  · rintro ⟨msg, hmsg⟩
    by_cases he : (required.filter (badField config)).isEmpty = true
    · simp [validate_required_fields, he] at hmsg
    · have h2 : required.filter (badField config) ≠ [] := by
        intro hq
        rw [hq] at he
        exact he rfl
      obtain ⟨f, hf⟩ := List.exists_mem_of_ne_nil _ h2
      exact ⟨f, (List.mem_filter.mp hf).1, (List.mem_filter.mp hf).2⟩
  · intro h
    simp [validate_required_fields, hne h]
  · intro f hf hb
    exact List.mem_filter.mpr ⟨hf, hb⟩
  · intro f
    unfold badField
    cases hq : config.lookup f with
    | none => simp
    | some v => simp

/-- Witness for C4: with one field present and truthy, one present but
empty and one absent, validation fails, as the forward direction of the
characterization yields at the concrete configuration. -/
theorem claim_c4_witness :
    ∃ msg, validate_required_fields [("a", "1"), ("b", "")] ["a", "b", "c"] =
      Except.error msg :=
  (claim_c4_validate [("a", "1"), ("b", "")] ["a", "b", "c"]).1.mp
    ⟨"b", by decide, by decide⟩

theorem dictSet_mem (m : List (String × String)) (k v : String) (p : String × String)
    (hp : p ∈ dictSet m k v) : p.1 = k ∨ p ∈ m := by
  induction m with
  | nil =>
    simp [dictSet] at hp
    exact Or.inl (by rw [hp])
  | cons q rest ih =>
    obtain ⟨k2, v2⟩ := q
    simp only [dictSet] at hp
    by_cases h : k2 = k
    · rw [if_pos h] at hp
      rcases List.mem_cons.mp hp with h1 | h1
      · exact Or.inl (by rw [h1])
      · exact Or.inr (List.mem_cons_of_mem _ h1)
    · rw [if_neg h] at hp
      rcases List.mem_cons.mp hp with h1 | h1
      · exact Or.inr (by rw [h1]; exact List.mem_cons_self _ _)
      · rcases ih h1 with h2 | h2
        · exact Or.inl h2
        · exact Or.inr (List.mem_cons_of_mem _ h2)

theorem add_wd_keys (st : GenState) (u l : String)
    (hinv : ∀ p ∈ st.wikidata_labels,
      pyStartsWith p.1 "http://www.wikidata.org/entity/" = true) :
    ∀ p ∈ (NanopubGenerator.add_wikidata_label st u l).wikidata_labels,
      pyStartsWith p.1 "http://www.wikidata.org/entity/" = true := by
  intro p hp
  unfold NanopubGenerator.add_wikidata_label at hp
  cases hcond : pyStartsWith u "http://www.wikidata.org/entity/" with
  | false =>
    rw [hcond] at hp
    simp at hp
    exact hinv p hp
  | true =>
    rw [hcond] at hp
    simp at hp
    rcases dictSet_mem _ u l p hp with h1 | h1
    · rw [h1]
      exact hcond
    · exact hinv p h1

theorem foldl_add_wd_keys (calls : List (String × String)) (st : GenState)
    (hinv : ∀ p ∈ st.wikidata_labels,
      pyStartsWith p.1 "http://www.wikidata.org/entity/" = true) :
    ∀ p ∈ ((calls.foldl (fun s q => NanopubGenerator.add_wikidata_label s q.1 q.2)
        st).wikidata_labels),
      pyStartsWith p.1 "http://www.wikidata.org/entity/" = true := by
  induction calls generalizing st with
  | nil => exact hinv
  | cons c cs ih => exact ih _ (add_wd_keys st c.1 c.2 hinv)

/-- C8: a call to add_wikidata_label with a URI outside the Wikidata
entity namespace returns the state unchanged, and after any sequence of
calls starting from a freshly constructed generator state every key of
the label map lies under the Wikidata entity namespace. -/
theorem claim_c8_add_wikidata_label (st : GenState) (u l : String) :
    (pyStartsWith u "http://www.wikidata.org/entity/" = false →
      NanopubGenerator.add_wikidata_label st u l = st)
    ∧ ∀ (cfg : Config) (uri : String) (calls : List (String × String)),
        ∀ p ∈ ((calls.foldl (fun s q => NanopubGenerator.add_wikidata_label s q.1 q.2)
            (NanopubGenerator.init cfg uri)).wikidata_labels),
          pyStartsWith p.1 "http://www.wikidata.org/entity/" = true := by
  constructor
  · intro h
    unfold NanopubGenerator.add_wikidata_label
    rw [h]
    simp
  · intro cfg uri calls
    apply foldl_add_wd_keys
    intro p hp
    simp [NanopubGenerator.init] at hp

/-- Witness for C8: a URI outside the Wikidata entity namespace leaves a
concrete generator state unchanged. -/
theorem claim_c8_witness :
    NanopubGenerator.add_wikidata_label
      (NanopubGenerator.init ⟨none, none, none, none, none, none⟩ "U")
      "http://example.org/x" "L" =
    NanopubGenerator.init ⟨none, none, none, none, none, none⟩ "U" :=
  (claim_c8_add_wikidata_label _ "http://example.org/x" "L").1 (by decide)

theorem pyStartsWith_of_append (a b : String) : pyStartsWith (a ++ b) a = true := by
  unfold pyStartsWith
  rw [strData_append]
  exact List.isPrefixOf_iff_prefix.mpr (List.prefix_append _ _)

theorem hexDigit_mem (d : Nat) : hexDigit d ∈ "0123456789abcdef".data := by
  unfold hexDigit
  split <;> decide

theorem sha256hex_length (msg : List Nat) : (sha256hex msg).length = 64 := by
  simp [sha256hex, sha256words, List.flatten, wordHex]

theorem sha256hex_mem_hex (msg : List Nat) (c : Char) (hc : c ∈ sha256hex msg) :
    c ∈ "0123456789abcdef".data := by
  unfold sha256hex at hc
  obtain ⟨lw, hlw, hcw⟩ := List.mem_flatten.mp hc
  obtain ⟨w, _, rfl⟩ := List.mem_map.mp hlw
  unfold wordHex at hcw
  simp at hcw
  rcases hcw with h | h | h | h | h | h | h | h <;> (rw [h]; exact hexDigit_mem _)

/-- C9: every string returned by generate_nanopub_uri is the fixed prefix
followed by exactly forty three characters, all hexadecimal digits, taken
from the digest of the fresh unique value, and two calls whose truncated
digests differ return different URIs. -/
theorem claim_c9_generate_nanopub_uri (u : String) :
    pyStartsWith (generate_nanopub_uri u) "https://w3id.org/np/RA" = true
    ∧ (generate_nanopub_uri u).length = 65
    ∧ (generate_nanopub_uri u).data.drop 22 = (sha256hex (u.data.map Char.toNat)).take 43
    ∧ ((generate_nanopub_uri u).data.drop 22).length = 43
    ∧ (∀ c ∈ (generate_nanopub_uri u).data.drop 22, c ∈ "0123456789abcdef".data)
    ∧ ∀ u2 : String,
        (sha256hex (u.data.map Char.toNat)).take 43 ≠
          (sha256hex (u2.data.map Char.toNat)).take 43 →
        generate_nanopub_uri u ≠ generate_nanopub_uri u2 := by
  have hdata : ∀ v : String, (generate_nanopub_uri v).data =
      "https://w3id.org/np/RA".data ++ (sha256hex (v.data.map Char.toNat)).take 43 := by
    intro v
    rfl
  have hdrop : (generate_nanopub_uri u).data.drop 22 =
      (sha256hex (u.data.map Char.toNat)).take 43 := by
    rw [hdata u, show (22 : Nat) = ("https://w3id.org/np/RA".data).length from rfl,
      List.drop_left]
  have htklen : ((sha256hex (u.data.map Char.toNat)).take 43).length = 43 := by
    rw [List.length_take, sha256hex_length]
    rfl
  refine ⟨pyStartsWith_of_append _ _, ?_, hdrop, ?_, ?_, ?_⟩
  · show (generate_nanopub_uri u).data.length = 65
    rw [hdata u, List.length_append, htklen]
    rfl
  · rw [hdrop]
    exact htklen
  · intro c hc
    rw [hdrop] at hc
    exact sha256hex_mem_hex _ c (List.mem_of_mem_take hc)
  · intro u2 hne heq
    apply hne
    have h2 : (generate_nanopub_uri u).data = (generate_nanopub_uri u2).data := by
      rw [heq]
    rw [hdata u, hdata u2] at h2
    exact List.append_cancel_left h2

set_option maxRecDepth 100000 in
/-- Witness for C9 at two concrete unique values: the truncated digests
differ, hence the generated URIs differ. -/
theorem claim_c9_witness :
    generate_nanopub_uri "123e4567-e89b-12d3-a456-426614174000" ≠
      generate_nanopub_uri "00000000-0000-4000-8000-000000000000" :=
  (claim_c9_generate_nanopub_uri "123e4567-e89b-12d3-a456-426614174000").2.2.2.2.2
    "00000000-0000-4000-8000-000000000000" (by decide)

theorem ne_nil_of_getLast {α : Type} (l : List α) (c : α) (h : l.getLast? = some c) :
    l ≠ [] := by
  intro h0
  rw [h0] at h
  simp at h

theorem endsSemi_lit (p L0 L : String) (h : L = L0 ++ " ;") :
    ∃ core, p ++ L = core ++ " ;" :=
  ⟨p ++ L0, by rw [h, ← strAssoc]⟩

theorem notEndsDot_of_semi (l : String) (h : ∃ core, l = core ++ " ;") :
    pyEndsWith l " ." = false := by
  obtain ⟨core, rfl⟩ := h
  apply pyEndsWith_dot_false _ ';'
  · rw [strGetLast_append core " ;" (by decide)]
    rfl
  · decide

theorem endsDot_lit (p L0 L : String) (h : L = L0 ++ " .") :
    pyEndsWith (p ++ L) " ." = true := by
  rw [h, ← strAssoc]
  exact pyEndsWith_of_append _ _

theorem mem_ite_singleton (c : Bool) (x l : String)
    (h : l ∈ (if c = true then [x] else ([] : List String))) : l = x := by
  cases c
  · simp at h
  · simpa using h

theorem thisBase_endsSemi (a : PubinfoArgs) (ts : String) (l : String)
    (hl : l ∈ thisBase a ts) : ∃ core, l = core ++ " ;" := by
  simp only [thisBase, List.mem_cons, List.not_mem_nil, or_false] at hl
  rcases hl with h | h | h
  · rw [h]
    exact ⟨_, rfl⟩
  · rw [h]
    exact ⟨_, rfl⟩
  · rw [h]
    exact ⟨"    dct:license <https://creativecommons.org/licenses/by/4.0/>", by decide⟩

theorem thisOptMeta_endsSemi (a : PubinfoArgs) (l : String)
    (hl : l ∈ thisOptMeta a) : ∃ core, l = core ++ " ;" := by
  unfold thisOptMeta at hl
  rcases List.mem_append.mp hl with h1 | h1
  · rcases List.mem_append.mp h1 with h2 | h2
    · rcases List.mem_append.mp h2 with h3 | h3
      · rw [mem_ite_singleton _ _ _ h3]
        exact ⟨_, rfl⟩
      · rw [mem_ite_singleton _ _ _ h3]
        exact ⟨_, rfl⟩
    · rw [mem_ite_singleton _ _ _ h2]
      exact ⟨_, rfl⟩
  · match hipo : a.is_part_of with
    | none =>
      rw [hipo] at h1
      simp at h1
    | some ipo =>
      rw [hipo] at h1
      have h2 : l = "    <http://purl.org/dc/terms/isPartOf> <" ++ ipo.uri ++ ">" ++ " ;" := by
        simp at h1
        exact h1.2
      rw [h2]
      exact ⟨_, rfl⟩

theorem make_literal_plain (v : String) :
    make_literal v none none = "\"" ++ escape_literal v ++ "\"" := by
  simp [make_literal, pyTruthy]

theorem make_literal_plain_getLast (v : String) :
    (make_literal v none none).data.getLast? = some '"' := by
  rw [make_literal_plain]
  rw [show "\"" ++ escape_literal v ++ "\"" = ("\"" ++ escape_literal v) ++ "\"" from rfl]
  rw [strGetLast_append _ "\"" (by decide)]
  rfl

theorem labelLine_core (a : PubinfoArgs) :
    ∃ core, labelLine a = core ++ " ;" ∧ core.data.getLast? = some '"' := by
  refine ⟨"    rdfs:label " ++ make_literal a.label none none, rfl, ?_⟩
  rw [strGetLast_append _ _ (ne_nil_of_getLast _ _ (make_literal_plain_getLast a.label))]
  exact make_literal_plain_getLast a.label

theorem provLine_core (a : PubinfoArgs) :
    ∃ core, provLine a = core ++ " ;" ∧ core.data.getLast? = some '>' := by
  refine ⟨"    nt:wasCreatedFromProvenanceTemplate <" ++ a.provenance_template_uri.getD "" ++
    ">", rfl, ?_⟩
  rw [strGetLast_append _ ">" (by decide)]
  rfl

theorem templatesStr_getLast (uris : List String) (h : uris ≠ []) :
    (templatesStr uris).data.getLast? = some '>' := by
  unfold templatesStr
  apply pyJoin_getLast
  · simpa using h
  · intro l hl
    obtain ⟨t, _, rfl⟩ := List.mem_map.mp hl
    rw [show "<" ++ t ++ ">" = ("<" ++ t) ++ ">" from rfl,
      strGetLast_append _ ">" (by decide)]
    rfl

theorem plistLine_core (a : PubinfoArgs) (h : a.pubinfo_template_uris.getD [] ≠ []) :
    ∃ core, plistLine a = core ++ " ;" ∧ core.data.getLast? = some '>' := by
  refine ⟨"    nt:wasCreatedFromPubinfoTemplate " ++
    templatesStr (a.pubinfo_template_uris.getD []), rfl, ?_⟩
  rw [strGetLast_append _ _ (ne_nil_of_getLast _ _ (templatesStr_getLast _ h))]
  exact templatesStr_getLast _ h

theorem pyTruthyList_ne_nil {α : Type} (o : Option (List α))
    (h : pyTruthyList o = true) : o.getD [] ≠ [] := by
  unfold pyTruthyList at h
  intro h0
  rw [h0] at h
  simp at h

theorem thisLast_core (a : PubinfoArgs) :
    ∃ core c, thisLast a = core ++ " ;" ∧ core.data.getLast? = some c
      ∧ stripSet.contains c = false ∧ c ≠ '.' := by
  unfold thisLast
  cases hp : pyTruthyList a.pubinfo_template_uris with
  | true =>
    simp only [if_true]
    obtain ⟨core, h1, h2⟩ := plistLine_core a (pyTruthyList_ne_nil _ hp)
    exact ⟨core, '>', h1, h2, by decide, by decide⟩
  | false =>
    simp only [Bool.false_eq_true, if_false]
    cases hv : pyTruthy a.provenance_template_uri with
    | true =>
      simp only [if_true]
      obtain ⟨core, h1, h2⟩ := provLine_core a
      exact ⟨core, '>', h1, h2, by decide, by decide⟩
    | false =>
      simp only [Bool.false_eq_true, if_false]
      obtain ⟨core, h1, h2⟩ := labelLine_core a
      exact ⟨core, '"', h1, h2, by decide, by decide⟩

theorem plistCore_getLast (a : PubinfoArgs) (h : a.pubinfo_template_uris.getD [] ≠ []) :
    ("    nt:wasCreatedFromPubinfoTemplate " ++
      templatesStr (a.pubinfo_template_uris.getD [])).data.getLast? = some '>' := by
  rw [strGetLast_append _ _ (ne_nil_of_getLast _ _ (templatesStr_getLast _ h))]
  exact templatesStr_getLast _ h

theorem labelCore_getLast (a : PubinfoArgs) :
    ("    rdfs:label " ++ make_literal a.label none none).data.getLast? = some '"' := by
  rw [strGetLast_append _ _ (ne_nil_of_getLast _ _ (make_literal_plain_getLast a.label))]
  exact make_literal_plain_getLast a.label

theorem provCore_getLast (a : PubinfoArgs) :
    ("    nt:wasCreatedFromProvenanceTemplate <" ++ a.provenance_template_uri.getD "" ++
      ">").data.getLast? = some '>' := by
  rw [strGetLast_append _ ">" (by decide)]
  rfl

theorem patchSemi_of_core (core : String) (c : Char) (hc : core.data.getLast? = some c)
    (hb : stripSet.contains c = false) (hcd : c ≠ '.') :
    patchSemi (core ++ " ;") = core ++ " ;" := by
  unfold patchSemi
  rw [pyRstripSemi_append core c hc hb]
  simp [pyEndsWith_dot_false core c hc hcd]

theorem dotTerm_of_core (core : String) (c : Char) (hc : core.data.getLast? = some c)
    (hb : stripSet.contains c = false) :
    dotTerm (core ++ " ;") = core ++ " ." := by
  unfold dotTerm
  rw [pyRstripSemi_append core c hc hb]

theorem countP_dot_front (front : List String)
    (h : ∀ l ∈ front, ∃ core, l = core ++ " ;") :
    front.countP (fun l => pyEndsWith l " .") = 0 := by
  rw [List.countP_eq_zero]
  intro l hl
  simp [notEndsDot_of_semi l (h l hl)]

theorem thisLines_split (a : PubinfoArgs) (ts : String) :
    ∃ front, thisLines a ts = front ++ [thisLast a]
      ∧ ∀ l ∈ front, ∃ core, l = core ++ " ;" := by
  have hbase : ∀ l ∈ thisBase a ts ++ thisOptMeta a ++ [createdAtLine, labelLine a],
      ∃ core, l = core ++ " ;" := by
    intro l hl
    rcases List.mem_append.mp hl with h1 | h1
    · rcases List.mem_append.mp h1 with h2 | h2
      · exact thisBase_endsSemi a ts l h2
      · exact thisOptMeta_endsSemi a l h2
    · simp only [List.mem_cons, List.not_mem_nil, or_false] at h1
      rcases h1 with h | h
      · rw [h]
        exact ⟨"    npx:wasCreatedAt <https://nanodash.knowledgepixels.com/>", by decide⟩
      · rw [h]
        obtain ⟨core, hc, _⟩ := labelLine_core a
        exact ⟨core, hc⟩
  unfold thisLines thisLast
  cases hp : pyTruthyList a.pubinfo_template_uris with
  | true =>
    cases hv : pyTruthy a.provenance_template_uri with
    | true =>
      refine ⟨thisBase a ts ++ thisOptMeta a ++ [createdAtLine, labelLine a] ++ [provLine a],
        by simp [List.append_assoc], ?_⟩
      intro l hl
      rcases List.mem_append.mp hl with h1 | h1
      · exact hbase l h1
      · simp only [List.mem_singleton] at h1
        rw [h1]
        obtain ⟨core, hc, _⟩ := provLine_core a
        exact ⟨core, hc⟩
    | false =>
      refine ⟨thisBase a ts ++ thisOptMeta a ++ [createdAtLine, labelLine a],
        by simp [List.append_assoc], ?_⟩
      exact hbase
  | false =>
    cases hv : pyTruthy a.provenance_template_uri with
    | true =>
      refine ⟨thisBase a ts ++ thisOptMeta a ++ [createdAtLine, labelLine a],
        by simp [List.append_assoc], ?_⟩
      exact hbase
    | false =>
      refine ⟨thisBase a ts ++ thisOptMeta a ++ [createdAtLine],
        by simp [List.append_assoc], ?_⟩
      intro l hl
      apply hbase
      rcases List.mem_append.mp hl with h1 | h1
      · rcases List.mem_append.mp h1 with h2 | h2
        · exact List.mem_append.mpr (Or.inl (List.mem_append.mpr (Or.inl h2)))
        · exact List.mem_append.mpr (Or.inl (List.mem_append.mpr (Or.inr h2)))
      · simp only [List.mem_singleton] at h1
        rw [h1]
        exact List.mem_append.mpr (Or.inr (by simp))

theorem thisLines_ne_nil (a : PubinfoArgs) (ts : String) : thisLines a ts ≠ [] := by
  obtain ⟨front, hs, _⟩ := thisLines_split a ts
  rw [hs]
  simp

theorem pubinfo_lines_eq (a : PubinfoArgs) (ts : String) :
    pubinfo_lines a ts = headSection a ++ thisFixed a ts ++ ["\x7d"] := by
  have hne := thisLines_ne_nil a ts
  unfold pubinfo_lines thisFixed
  by_cases ht : pyTruthy a.template_uri = true
  · rw [if_pos ht, if_pos ht, modifyLast_append _ _ _ hne]
    simp [List.append_assoc]
  · rw [if_neg ht, if_neg ht, modifyLast_append _ _ _ hne]

theorem templateLine_endsDot (a : PubinfoArgs) :
    pyEndsWith (templateLine a) " ." = true := by
  unfold templateLine
  exact pyEndsWith_of_append _ _

/-- C1: the metadata block on the this: subject ends with exactly one
statement terminator. When template_uri is truthy the final line is the
wasCreatedFromTemplate triple terminated by a period, and the immediately
preceding line ends with a semicolon and not with a period; when
template_uri is falsy the last line of the block is terminated by a
period, is the pubinfo template list line when templates were given, and
is the label line when neither pubinfo nor provenance templates were
given; in every case exactly one line of the block ends with a period
terminator, and the pubinfo graph consists of the opening section, this
block and the closing brace. -/
theorem claim_c1_terminator (a : PubinfoArgs) (ts : String) :
    (pyTruthy a.template_uri = true →
      ∃ front prev, thisFixed a ts = front ++ [prev, templateLine a]
        ∧ pyEndsWith prev " ;" = true ∧ pyEndsWith prev " ." = false
        ∧ pyEndsWith (templateLine a) " ." = true)
    ∧ (pyTruthy a.template_uri = false →
      ∃ front lst, thisFixed a ts = front ++ [lst]
        ∧ pyEndsWith lst " ." = true
        ∧ (pyTruthyList a.pubinfo_template_uris = true →
            lst = "    nt:wasCreatedFromPubinfoTemplate " ++
              templatesStr (a.pubinfo_template_uris.getD []) ++ " .")
        ∧ (pyTruthyList a.pubinfo_template_uris = false →
            pyTruthy a.provenance_template_uri = false →
            lst = "    rdfs:label " ++ make_literal a.label none none ++ " ."))
    ∧ (thisFixed a ts).countP (fun l => pyEndsWith l " .") = 1
    ∧ pubinfo_lines a ts = headSection a ++ thisFixed a ts ++ ["\x7d"] := by
  obtain ⟨front, hsplit, hfront⟩ := thisLines_split a ts
  have hfc := countP_dot_front front hfront
  have htl := templateLine_endsDot a
  by_cases ht : pyTruthy a.template_uri = true
  · obtain ⟨core, c, hlast, hgl, hcc, hcd⟩ := thisLast_core a
    have hfix : thisFixed a ts = front ++ [core ++ " ;", templateLine a] := by
      unfold thisFixed
      rw [if_pos ht, hsplit, modifyLast_concat, hlast,
        patchSemi_of_core core c hgl hcc hcd]
      simp [List.append_assoc]
    refine ⟨?_, ?_, ?_, pubinfo_lines_eq a ts⟩
    · intro _
      exact ⟨front, core ++ " ;", hfix, pyEndsWith_of_append _ _,
        notEndsDot_of_semi _ ⟨core, rfl⟩, htl⟩
    · intro hfalse
      rw [ht] at hfalse
      exact absurd hfalse (by decide)
    · rw [hfix, show front ++ [core ++ " ;", templateLine a] =
        front ++ ([core ++ " ;"] ++ [templateLine a]) by simp,
        ← List.append_assoc, List.countP_append, List.countP_append, hfc]
      simp [notEndsDot_of_semi ((core : String) ++ " ;") ⟨core, rfl⟩, htl]
  · have ht2 : pyTruthy a.template_uri = false := by
      cases hq : pyTruthy a.template_uri
      · rfl
      · exact absurd hq ht
    have hdotgen : ∀ core0 c0, core0.data.getLast? = some c0 →
        stripSet.contains c0 = false →
        thisLast a = core0 ++ " ;" →
        thisFixed a ts = front ++ [core0 ++ " ."] := by
      intro core0 c0 hg hb hl
      unfold thisFixed
      rw [if_neg ht, hsplit, modifyLast_concat, hl, dotTerm_of_core core0 c0 hg hb]
    refine ⟨?_, ?_, ?_, pubinfo_lines_eq a ts⟩
    · intro htrue
      rw [ht2] at htrue
      exact absurd htrue (by decide)
    · intro _
      cases hp : pyTruthyList a.pubinfo_template_uris with
      | true =>
        have hl : thisLast a = ("    nt:wasCreatedFromPubinfoTemplate " ++
            templatesStr (a.pubinfo_template_uris.getD [])) ++ " ;" := by
          unfold thisLast
          rw [if_pos hp]
          rfl
        have hfix := hdotgen _ '>' (plistCore_getLast a (pyTruthyList_ne_nil _ hp))
          (by decide) hl
        refine ⟨front, _, hfix, pyEndsWith_of_append _ _, ?_, ?_⟩
        · intro _
          rfl
        · intro hp2 _
          exact absurd hp2 (by decide)
      | false =>
        cases hv : pyTruthy a.provenance_template_uri with
        | true =>
          have hl : thisLast a = ("    nt:wasCreatedFromProvenanceTemplate <" ++
              a.provenance_template_uri.getD "" ++ ">") ++ " ;" := by
            unfold thisLast
            rw [if_neg (by rw [hp]; decide), if_pos hv]
            rfl
          have hfix := hdotgen _ '>' (provCore_getLast a) (by decide) hl
          refine ⟨front, _, hfix, pyEndsWith_of_append _ _, ?_, ?_⟩
          · intro hp2
            exact absurd hp2 (by decide)
          · intro _ hv2
            exact absurd hv2 (by decide)
        | false =>
          have hl : thisLast a = ("    rdfs:label " ++ make_literal a.label none none) ++
              " ;" := by
            unfold thisLast
            rw [if_neg (by rw [hp]; decide), if_neg (by rw [hv]; decide)]
            rfl
          have hfix := hdotgen _ '"' (labelCore_getLast a) (by decide) hl
          refine ⟨front, _, hfix, pyEndsWith_of_append _ _, ?_, ?_⟩
          · intro hp2
            exact absurd hp2 (by decide)
          · intro _ _
            rfl
    · obtain ⟨core, c, hlast, hgl, hcc, _⟩ := thisLast_core a
      rw [hdotgen core c hgl hcc hlast, List.countP_append, hfc]
      simp [pyEndsWith_of_append core " ."]

/-- Witness for C1 at a concrete argument record carrying a custom
template URI: the fixed metadata block ends with the template line
preceded by a semicolon terminated line. -/
theorem claim_c1_witness :
    ∃ front prev,
      thisFixed ⟨"U", "sub", "O", "N", "L", some "http://t", some "http://pt",
        some ["http://p1", "http://p2"], none, none, none, none, none⟩ "TS" =
          front ++ [prev, templateLine ⟨"U", "sub", "O", "N", "L", some "http://t",
            some "http://pt", some ["http://p1", "http://p2"], none, none, none, none, none⟩]
      ∧ pyEndsWith prev " ;" = true ∧ pyEndsWith prev " ." = false
      ∧ pyEndsWith (templateLine ⟨"U", "sub", "O", "N", "L", some "http://t",
          some "http://pt", some ["http://p1", "http://p2"], none, none, none, none,
          none⟩) " ." = true :=
  (claim_c1_terminator ⟨"U", "sub", "O", "N", "L", some "http://t", some "http://pt",
    some ["http://p1", "http://p2"], none, none, none, none, none⟩ "TS").1 (by decide)

theorem isPrefixOf_append_of_le (p l1 l2 : List Char) (h : p.length ≤ l1.length) :
    p.isPrefixOf (l1 ++ l2) = p.isPrefixOf l1 := by
  induction p generalizing l1 with
  | nil => simp [List.isPrefixOf]
  | cons x xs ih =>
    cases l1 with
    | nil => simp at h
    | cons y ys =>
      simp only [List.cons_append, List.isPrefixOf]
      rw [show ys.append l2 = ys ++ l2 from rfl, ih ys (by simpa using h)]

theorem notLabel_of_lit (lit v : String) (h3 : 3 ≤ lit.data.length)
    (hf : isLabelLine lit = false) : isLabelLine (lit ++ v) = false := by
  unfold isLabelLine pyStartsWith at *
  rw [strData_append, isPrefixOf_append_of_le _ _ _
    (le_trans (le_of_eq (by decide : ("  <".data).length = 3)) h3)]
  exact hf

theorem pyStartsWith_trans_append (p a b : String) (h : pyStartsWith a p = true) :
    pyStartsWith (a ++ b) p = true := by
  unfold pyStartsWith at *
  rw [strData_append]
  exact List.isPrefixOf_iff_prefix.mpr
    ((List.isPrefixOf_iff_prefix.mp h).trans (List.prefix_append _ _))

theorem isLabelLine_apiLabelLine (u l : String) :
    isLabelLine (apiLabelLine u l) = true := by
  unfold isLabelLine apiLabelLine
  apply pyStartsWith_trans_append
  apply pyStartsWith_trans_append
  apply pyStartsWith_trans_append
  exact pyStartsWith_of_append "  <" u

theorem thisBase_notLabel (a : PubinfoArgs) (ts : String) (l : String)
    (hl : l ∈ thisBase a ts) : isLabelLine l = false := by
  simp only [thisBase, List.mem_cons, List.not_mem_nil, or_false] at hl
  rcases hl with h | h | h <;> rw [h]
  · simp only [strAssoc]
    exact notLabel_of_lit _ _ (by decide) (by decide)
  · simp only [strAssoc]
    exact notLabel_of_lit _ _ (by decide) (by decide)
  · decide

theorem thisOptMeta_notLabel (a : PubinfoArgs) (l : String)
    (hl : l ∈ thisOptMeta a) : isLabelLine l = false := by
  unfold thisOptMeta at hl
  rcases List.mem_append.mp hl with h1 | h1
  · rcases List.mem_append.mp h1 with h2 | h2
    · rcases List.mem_append.mp h2 with h3 | h3
      · rw [mem_ite_singleton _ _ _ h3]
        simp only [strAssoc]
        exact notLabel_of_lit _ _ (by decide) (by decide)
      · rw [mem_ite_singleton _ _ _ h3]
        simp only [strAssoc]
        exact notLabel_of_lit _ _ (by decide) (by decide)
    · rw [mem_ite_singleton _ _ _ h2]
      simp only [strAssoc]
      exact notLabel_of_lit _ _ (by decide) (by decide)
  · match hipo : a.is_part_of with
    | none =>
      rw [hipo] at h1
      simp at h1
    | some ipo =>
      rw [hipo] at h1
      have h2 : l = "    <http://purl.org/dc/terms/isPartOf> <" ++ ipo.uri ++ ">" ++ " ;" := by
        simp at h1
        exact h1.2
      rw [h2]
      simp only [strAssoc]
      exact notLabel_of_lit _ _ (by decide) (by decide)

theorem labelLine_notLabel (a : PubinfoArgs) : isLabelLine (labelLine a) = false := by
  unfold labelLine
  simp only [strAssoc]
  exact notLabel_of_lit _ _ (by decide) (by decide)

theorem provLine_notLabel (a : PubinfoArgs) : isLabelLine (provLine a) = false := by
  unfold provLine
  simp only [strAssoc]
  exact notLabel_of_lit _ _ (by decide) (by decide)

theorem plistLine_notLabel (a : PubinfoArgs) : isLabelLine (plistLine a) = false := by
  unfold plistLine
  simp only [strAssoc]
  exact notLabel_of_lit _ _ (by decide) (by decide)

theorem templateLine_notLabel (a : PubinfoArgs) : isLabelLine (templateLine a) = false := by
  unfold templateLine
  simp only [strAssoc]
  exact notLabel_of_lit _ _ (by decide) (by decide)

theorem creatorNameLine_notLabel (o n : String) :
    isLabelLine (creatorNameLine o n) = false := by
  unfold creatorNameLine
  simp only [strAssoc]
  exact notLabel_of_lit _ _ (by decide) (by decide)

theorem thisLines_notLabel (a : PubinfoArgs) (ts : String) :
    ∀ l ∈ thisLines a ts, isLabelLine l = false := by
  intro l hl
  unfold thisLines at hl
  rcases List.mem_append.mp hl with h1 | h1
  · rcases List.mem_append.mp h1 with h2 | h2
    · rcases List.mem_append.mp h2 with h3 | h3
      · rcases List.mem_append.mp h3 with h4 | h4
        · exact thisBase_notLabel a ts l h4
        · exact thisOptMeta_notLabel a l h4
      · simp only [List.mem_cons, List.not_mem_nil, or_false] at h3
        rcases h3 with h | h
        · rw [h]
          decide
        · rw [h]
          exact labelLine_notLabel a
    · rw [mem_ite_singleton _ _ _ h2]
      exact provLine_notLabel a
  · rw [mem_ite_singleton _ _ _ h1]
    exact plistLine_notLabel a

theorem thisLast_core_full (a : PubinfoArgs) :
    ∃ core c, thisLast a = core ++ " ;" ∧ core.data.getLast? = some c
      ∧ stripSet.contains c = false ∧ c ≠ '.'
      ∧ ∀ v : String, isLabelLine (core ++ v) = false := by
  unfold thisLast
  cases hp : pyTruthyList a.pubinfo_template_uris with
  | true =>
    simp only [if_true]
    refine ⟨"    nt:wasCreatedFromPubinfoTemplate " ++
      templatesStr (a.pubinfo_template_uris.getD []), '>', rfl,
      plistCore_getLast a (pyTruthyList_ne_nil _ hp), by decide, by decide, ?_⟩
    intro v
    simp only [strAssoc]
    exact notLabel_of_lit _ _ (by decide) (by decide)
  | false =>
    simp only [Bool.false_eq_true, if_false]
    cases hv : pyTruthy a.provenance_template_uri with
    | true =>
      simp only [if_true]
      refine ⟨"    nt:wasCreatedFromProvenanceTemplate <" ++
        a.provenance_template_uri.getD "" ++ ">", '>', rfl, provCore_getLast a,
        by decide, by decide, ?_⟩
      intro v
      simp only [strAssoc]
      exact notLabel_of_lit _ _ (by decide) (by decide)
    | false =>
      simp only [Bool.false_eq_true, if_false]
      refine ⟨"    rdfs:label " ++ make_literal a.label none none, '"', rfl,
        labelCore_getLast a, by decide, by decide, ?_⟩
      intro v
      simp only [strAssoc]
      exact notLabel_of_lit _ _ (by decide) (by decide)

theorem thisFixed_notLabel (a : PubinfoArgs) (ts : String) :
    ∀ l ∈ thisFixed a ts, isLabelLine l = false := by
  obtain ⟨front, hsplit, _⟩ := thisLines_split a ts
  obtain ⟨core, c, hlast, hgl, hcc, hcd, hcl⟩ := thisLast_core_full a
  intro l hl
  unfold thisFixed at hl
  by_cases ht : pyTruthy a.template_uri = true
  · rw [if_pos ht, hsplit, modifyLast_concat, hlast,
      patchSemi_of_core core c hgl hcc hcd] at hl
    rcases List.mem_append.mp hl with h1 | h1
    · rcases List.mem_append.mp h1 with h2 | h2
      · exact thisLines_notLabel a ts l (by rw [hsplit]; exact List.mem_append.mpr (Or.inl h2))
      · simp only [List.mem_singleton] at h2
        rw [h2]
        exact hcl " ;"
    · simp only [List.mem_singleton] at h1
      rw [h1]
      exact templateLine_notLabel a
  · rw [if_neg ht, hsplit, modifyLast_concat, hlast, dotTerm_of_core core c hgl hcc] at hl
    rcases List.mem_append.mp hl with h1 | h1
    · exact thisLines_notLabel a ts l (by rw [hsplit]; exact List.mem_append.mpr (Or.inl h1))
    · simp only [List.mem_singleton] at h1
      rw [h1]
      exact hcl " ."

theorem apiLabelLine_no_nl (u l : String) (hu : u.data.contains '\n' = false) :
    (apiLabelLine u l).data.contains '\n' = false := by
  have hu2 : ¬ ('\n' ∈ u.data) := by simpa using hu
  have hl2 : ¬ ('\n' ∈ escChars l.data) := by simpa using escChars_contains_nl l.data
  unfold apiLabelLine
  rw [make_literal_plain]
  simp only [strData_append, show (escape_literal l).data = escChars l.data from rfl]
  simp [hu2, hl2]

theorem headSection_eq (a : PubinfoArgs) (wu wl pu pl : String)
    (h1 : a.wikidata_labels = some [(wu, wl)])
    (h2 : a.is_part_of = some ⟨pu, some pl⟩)
    (h3 : pl ≠ "") :
    headSection a = (a.subPfx ++ ":pubinfo \x7b") :: apiLabelLine wu wl :: "" ::
      apiLabelLine pu pl :: "" :: creatorNameLine a.creator_orcid a.creator_name ::
      "" :: [] := by
  unfold headSection
  rw [h1, h2]
  simp [pyTruthyList, h3]

/-- C2: when the Wikidata label map holds exactly one entry and is_part_of
carries both a uri and a truthy label, the pubinfo line list opens with
the graph header, the Wikidata label line, a blank line, the is_part_of
label line, a blank line and the creator name line followed by a blank
line, the two hasLabelFromApi lines are label lines free of raw newlines,
exactly two lines of the whole graph are label lines, and the graph text
is the newline join of this line list. -/
theorem claim_c2_label_lines (a : PubinfoArgs) (ts wu wl pu pl : String)
    (h1 : a.wikidata_labels = some [(wu, wl)])
    (h2 : a.is_part_of = some ⟨pu, some pl⟩)
    (h3 : pl ≠ "")
    (h4 : isLabelLine (a.subPfx ++ ":pubinfo \x7b") = false)
    (h5 : wu.data.contains '\n' = false)
    (h6 : pu.data.contains '\n' = false) :
    pubinfo_lines a ts = (a.subPfx ++ ":pubinfo \x7b") :: apiLabelLine wu wl :: "" ::
        apiLabelLine pu pl :: "" :: creatorNameLine a.creator_orcid a.creator_name :: "" ::
        (thisFixed a ts ++ ["\x7d"])
    ∧ isLabelLine (apiLabelLine wu wl) = true
    ∧ isLabelLine (apiLabelLine pu pl) = true
    ∧ (apiLabelLine wu wl).data.contains '\n' = false
    ∧ (apiLabelLine pu pl).data.contains '\n' = false
    ∧ (pubinfo_lines a ts).countP isLabelLine = 2
    ∧ generate_pubinfo_graph a ts = pyJoin "\n" (pubinfo_lines a ts) := by
  have hh := headSection_eq a wu wl pu pl h1 h2 h3
  have heq : pubinfo_lines a ts = (a.subPfx ++ ":pubinfo \x7b") :: apiLabelLine wu wl ::
      "" :: apiLabelLine pu pl :: "" :: creatorNameLine a.creator_orcid a.creator_name ::
      "" :: (thisFixed a ts ++ ["\x7d"]) := by
    rw [pubinfo_lines_eq, hh]
    simp
  have hthis : (thisFixed a ts).countP isLabelLine = 0 := by
    rw [List.countP_eq_zero]
    intro l hl
    simp [thisFixed_notLabel a ts l hl]
  refine ⟨heq, isLabelLine_apiLabelLine wu wl, isLabelLine_apiLabelLine pu pl,
    apiLabelLine_no_nl wu wl h5, apiLabelLine_no_nl pu pl h6, ?_, rfl⟩
  rw [heq]
  simp [List.countP_cons, List.countP_append, hthis, h4,
    isLabelLine_apiLabelLine, creatorNameLine_notLabel,
    show isLabelLine "" = false from by decide,
    show isLabelLine "\x7d" = false from by decide]

/-- Witness for C2 at a concrete argument record with one Wikidata entry
and a labelled is_part_of reference: the graph has exactly two label
lines. -/
theorem claim_c2_witness :
    (pubinfo_lines ⟨"U", "sub", "O", "N", "L", none, none, none, none, none,
      some [("http://www.wikidata.org/entity/Q1", "lab1")], none,
      some ⟨"http://ipo", some "ipolabel"⟩⟩ "TS").countP isLabelLine = 2 :=
  (claim_c2_label_lines ⟨"U", "sub", "O", "N", "L", none, none, none, none, none,
    some [("http://www.wikidata.org/entity/Q1", "lab1")], none,
    some ⟨"http://ipo", some "ipolabel"⟩⟩ "TS"
    "http://www.wikidata.org/entity/Q1" "lab1" "http://ipo" "ipolabel"
    rfl rfl (by decide) (by decide) (by decide) (by decide)).2.2.2.2.2.1

theorem strHead_append_ne (a b : String) (ha : a.data.head? ≠ some '\n')
    (hb : b.data.head? ≠ some '\n') : (a ++ b).data.head? ≠ some '\n' := by
  rw [strHead_append]
  cases hq : a.data.head? with
  | none => simpa [Option.or] using hb
  | some c =>
    rw [hq] at ha
    simpa [Option.or] using ha

theorem get_prefixes_block_getLast (st : GenState) :
    (get_prefixes_block st).data.getLast? = some '.' := by
  unfold get_prefixes_block
  apply pyJoin_getLast _ _ '.'
  · simp
  · intro l hl
    simp only [List.cons_append, List.nil_append, List.mem_cons] at hl
    rcases hl with h | h | h
    · rw [h, strGetLast_append _ "> ." (by decide)]
      rfl
    · rw [h, strGetLast_append _ "/> ." (by decide)]
      rfl
    · obtain ⟨p, _, rfl⟩ := List.mem_map.mp h
      rw [strGetLast_append _ "> ." (by decide)]
      rfl

theorem get_prefixes_block_head (st : GenState) :
    (get_prefixes_block st).data.head? = some '@' := by
  unfold get_prefixes_block
  simp only [List.cons_append]
  apply pyJoin_head_of
  rw [strHead_append, strHead_append]
  rfl

theorem head_graph_getLast (s : String) :
    (generate_head_graph s).data.getLast? = some '\x7d' := by
  unfold generate_head_graph
  rw [strGetLast_append _ ":pubinfo .\n\x7d" (by decide)]
  rfl

theorem head_graph_head (s : String) (hs : s.data.head? ≠ some '\n') :
    (generate_head_graph s).data.head? ≠ some '\n' := by
  unfold generate_head_graph
  refine strHead_append_ne _ _ ?_ (by decide)
  refine strHead_append_ne _ _ ?_ hs
  refine strHead_append_ne _ _ ?_ (by decide)
  refine strHead_append_ne _ _ ?_ hs
  refine strHead_append_ne _ _ ?_ (by decide)
  refine strHead_append_ne _ _ ?_ hs
  exact strHead_append_ne _ _ hs (by decide)

theorem prov_graph_getLast (s o : String) :
    (generate_provenance_graph s o).data.getLast? = some '\x7d' := by
  unfold generate_provenance_graph
  rw [strGetLast_append _ " .\n\x7d" (by decide)]
  rfl

theorem strHead_append_some (a b : String) (c : Char) (h : a.data.head? = some c) :
    (a ++ b).data.head? = some c := by
  rw [strHead_append, h]
  rfl

theorem head_some_ne (a b : String) (ha : a.data.head? ≠ some '\n')
    (hbne : b.data ≠ []) (hb : b.data.head? ≠ some '\n') :
    ∃ c, (a ++ b).data.head? = some c ∧ c ≠ '\n' := by
  rw [strHead_append]
  cases hq : a.data.head? with
  | none =>
    cases hb2 : b.data.head? with
    | none => exact absurd (List.head?_eq_none_iff.mp hb2) hbne
    | some c =>
      rw [hb2] at hb
      exact ⟨c, by simp [Option.or], fun h0 => hb (by rw [h0])⟩
  | some c =>
    rw [hq] at ha
    exact ⟨c, by simp [Option.or], fun h0 => ha (by rw [h0])⟩

theorem prov_graph_head (s o : String) (hs : s.data.head? ≠ some '\n') :
    (generate_provenance_graph s o).data.head? ≠ some '\n' := by
  obtain ⟨c, hc, hcne⟩ := head_some_ne s ":provenance \x7b\n  " hs (by decide) (by decide)
  unfold generate_provenance_graph
  rw [strHead_append_some _ _ c (strHead_append_some _ _ c (strHead_append_some _ _ c
    (strHead_append_some _ _ c hc)))]
  intro h0
  exact hcne (Option.some.inj h0)

theorem headSection_cons (a : PubinfoArgs) :
    ∃ rest, headSection a = (a.subPfx ++ ":pubinfo \x7b") :: rest := by
  unfold headSection
  exact ⟨_, rfl⟩

theorem pubinfo_graph_getLast (a : PubinfoArgs) (ts : String) :
    (generate_pubinfo_graph a ts).data.getLast? = some '\x7d' := by
  unfold generate_pubinfo_graph
  rw [pubinfo_lines_eq]
  rw [show headSection a ++ thisFixed a ts ++ ["\x7d"] =
    (headSection a ++ thisFixed a ts) ++ ["\x7d"] from rfl]
  rw [pyJoin_concat_getLast _ _ _ (by decide)]
  rfl

theorem pubinfo_graph_head (a : PubinfoArgs) (ts : String)
    (hs : a.subPfx.data.head? ≠ some '\n') :
    (generate_pubinfo_graph a ts).data.head? ≠ some '\n' := by
  have hhd : (a.subPfx ++ ":pubinfo \x7b").data.head? ≠ some '\n' :=
    strHead_append_ne _ _ hs (by decide)
  have hne : (a.subPfx ++ ":pubinfo \x7b").data ≠ [] := by
    intro h0
    have h1 := strGetLast_append a.subPfx ":pubinfo \x7b" (by decide)
    rw [h0] at h1
    simp at h1
  obtain ⟨c, hc⟩ : ∃ c, (a.subPfx ++ ":pubinfo \x7b").data.head? = some c := by
    cases hq : (a.subPfx ++ ":pubinfo \x7b").data.head? with
    | none => exact absurd (List.head?_eq_none_iff.mp hq) hne
    | some c => exact ⟨c, rfl⟩
  obtain ⟨rest, hr⟩ := headSection_cons a
  unfold generate_pubinfo_graph
  rw [pubinfo_lines_eq, hr, List.cons_append, List.cons_append,
    pyJoin_head_of _ _ _ c hc]
  rw [hc] at hhd
  exact hhd

/-- C3: for every configuration, generator state and assertion extension
whose returned graph block has no leading or trailing newline, generate
returns exactly the five blocks, prefixes, Head, assertion, provenance
and pubinfo, in that order, each adjacent pair separated by one blank
line; no block starts or ends with a newline character, so each
separation is exactly one blank line, and the document ends with exactly
one trailing newline. -/
theorem claim_c3_generate (st : GenState) (ext : GenState → GenState × String) (ts : String)
    (h1 : (ext st).2.data.head? ≠ some '\n')
    (h2 : (ext st).2.data.getLast? ≠ some '\n')
    (h3 : (ext st).1.subPfx.data.head? ≠ some '\n') :
    NanopubGenerator.generate st ext ts =
      get_prefixes_block (ext st).1 ++ "\n\n" ++
      generate_head_graph (ext st).1.subPfx ++ "\n\n" ++
      (ext st).2 ++ "\n\n" ++
      generate_provenance_graph (ext st).1.subPfx
        (st.config.creator_orcid.getD "0000-0000-0000-0000") ++ "\n\n" ++
      generate_pubinfo_graph (NanopubGenerator.generateArgs st ext) ts ++ "\n"
    ∧ (get_prefixes_block (ext st).1).data.head? = some '@'
    ∧ (get_prefixes_block (ext st).1).data.getLast? = some '.'
    ∧ (generate_head_graph (ext st).1.subPfx).data.head? ≠ some '\n'
    ∧ (generate_head_graph (ext st).1.subPfx).data.getLast? = some '\x7d'
    ∧ (generate_provenance_graph (ext st).1.subPfx
        (st.config.creator_orcid.getD "0000-0000-0000-0000")).data.head? ≠ some '\n'
    ∧ (generate_provenance_graph (ext st).1.subPfx
        (st.config.creator_orcid.getD "0000-0000-0000-0000")).data.getLast? = some '\x7d'
    ∧ (generate_pubinfo_graph (NanopubGenerator.generateArgs st ext) ts).data.head? ≠
        some '\n'
    ∧ (generate_pubinfo_graph (NanopubGenerator.generateArgs st ext) ts).data.getLast? =
        some '\x7d'
    ∧ (ext st).2.data.head? ≠ some '\n'
    ∧ (ext st).2.data.getLast? ≠ some '\n'
    ∧ (NanopubGenerator.generate st ext ts).data.getLast? = some '\n' := by
  have heq : NanopubGenerator.generate st ext ts =
      get_prefixes_block (ext st).1 ++ "\n\n" ++
      generate_head_graph (ext st).1.subPfx ++ "\n\n" ++
      (ext st).2 ++ "\n\n" ++
      generate_provenance_graph (ext st).1.subPfx
        (st.config.creator_orcid.getD "0000-0000-0000-0000") ++ "\n\n" ++
      generate_pubinfo_graph (NanopubGenerator.generateArgs st ext) ts ++ "\n" := rfl
  refine ⟨heq, get_prefixes_block_head _, get_prefixes_block_getLast _,
    head_graph_head _ h3, head_graph_getLast _, prov_graph_head _ _ h3,
    prov_graph_getLast _ _, pubinfo_graph_head _ _ h3, pubinfo_graph_getLast _ _,
    h1, h2, ?_⟩
  rw [heq, strGetLast_append _ "\n" (by decide)]
  rfl

/-- Witness for C3 at the concrete end to end example of the
specification: a simple configuration and a one triple assertion block
with no side effects. -/
theorem claim_c3_witness :
    NanopubGenerator.generate
      (NanopubGenerator.init
        ⟨some "0000-0001-2345-6789", some "A. Researcher", none, none, none, some "Test"⟩
        "URI")
      (fun s => (s, "sub:assertion \x7b\n  <a> <b> <c> .\n\x7d")) "TS" =
    get_prefixes_block (NanopubGenerator.init
        ⟨some "0000-0001-2345-6789", some "A. Researcher", none, none, none, some "Test"⟩
        "URI") ++ "\n\n" ++
    generate_head_graph "sub" ++ "\n\n" ++
    "sub:assertion \x7b\n  <a> <b> <c> .\n\x7d" ++ "\n\n" ++
    generate_provenance_graph "sub" "0000-0001-2345-6789" ++ "\n\n" ++
    generate_pubinfo_graph (NanopubGenerator.generateArgs
      (NanopubGenerator.init
        ⟨some "0000-0001-2345-6789", some "A. Researcher", none, none, none, some "Test"⟩
        "URI")
      (fun s => (s, "sub:assertion \x7b\n  <a> <b> <c> .\n\x7d"))) "TS" ++ "\n" :=
  (claim_c3_generate
    (NanopubGenerator.init
      ⟨some "0000-0001-2345-6789", some "A. Researcher", none, none, none, some "Test"⟩
      "URI")
    (fun s => (s, "sub:assertion \x7b\n  <a> <b> <c> .\n\x7d")) "TS"
    (by decide) (by decide) (by decide)).1

/-- C10: generate unconditionally passes the fixed provenance template
and the two fixed pubinfo templates to the pubinfo builder, so for every
state and assertion extension the pubinfo line list contains the
wasCreatedFromProvenanceTemplate line with the fixed URI, the
wasCreatedFromPubinfoTemplate list over both fixed URIs, and the label
line still terminated by a semicolon; hence the builder branches for
absent provenance or pubinfo templates, including the one that would
make the label line last, are unreachable through generate. -/
theorem claim_c10_fixed_templates (st : GenState) (ext : GenState → GenState × String)
    (ts : String) :
    (NanopubGenerator.generateArgs st ext).provenance_template_uri =
      some NanopubGenerator.PROVENANCE_TEMPLATE
    ∧ (NanopubGenerator.generateArgs st ext).pubinfo_template_uris =
      some NanopubGenerator.PUBINFO_TEMPLATES
    ∧ provLine (NanopubGenerator.generateArgs st ext) ∈
        pubinfo_lines (NanopubGenerator.generateArgs st ext) ts
    ∧ labelLine (NanopubGenerator.generateArgs st ext) ∈
        pubinfo_lines (NanopubGenerator.generateArgs st ext) ts
    ∧ ("    nt:wasCreatedFromPubinfoTemplate " ++
        templatesStr NanopubGenerator.PUBINFO_TEMPLATES ++
        (if pyTruthy st.config.template_uri then " ;" else " .")) ∈
        pubinfo_lines (NanopubGenerator.generateArgs st ext) ts
    ∧ ∃ pre, NanopubGenerator.generate st ext ts =
        pre ++ generate_pubinfo_graph (NanopubGenerator.generateArgs st ext) ts ++ "\n" := by
  have hv : pyTruthy (NanopubGenerator.generateArgs st ext).provenance_template_uri = true := by
    show pyTruthy (some NanopubGenerator.PROVENANCE_TEMPLATE) = true
    decide
  have hp : pyTruthyList (NanopubGenerator.generateArgs st ext).pubinfo_template_uris = true := by
    show pyTruthyList (some NanopubGenerator.PUBINFO_TEMPLATES) = true
    decide
  have hTL : thisLines (NanopubGenerator.generateArgs st ext) ts =
      (thisBase (NanopubGenerator.generateArgs st ext) ts ++
        thisOptMeta (NanopubGenerator.generateArgs st ext) ++
        [createdAtLine, labelLine (NanopubGenerator.generateArgs st ext)] ++
        [provLine (NanopubGenerator.generateArgs st ext)]) ++
      [plistLine (NanopubGenerator.generateArgs st ext)] := by
    unfold thisLines
    rw [if_pos hv, if_pos hp]
  have hcore : ("    nt:wasCreatedFromPubinfoTemplate " ++
      templatesStr NanopubGenerator.PUBINFO_TEMPLATES).data.getLast? = some '>' :=
    plistCore_getLast (NanopubGenerator.generateArgs st ext) (pyTruthyList_ne_nil _ hp)
  refine ⟨rfl, rfl, ?_, ?_, ?_, ?_⟩
  · rw [pubinfo_lines_eq]
    refine List.mem_append.mpr (Or.inl (List.mem_append.mpr (Or.inr ?_)))
    unfold thisFixed
    by_cases ht : pyTruthy (NanopubGenerator.generateArgs st ext).template_uri = true
    · rw [if_pos ht, hTL, modifyLast_concat]
      simp
    · rw [if_neg ht, hTL, modifyLast_concat]
      simp
  · rw [pubinfo_lines_eq]
    refine List.mem_append.mpr (Or.inl (List.mem_append.mpr (Or.inr ?_)))
    unfold thisFixed
    by_cases ht : pyTruthy (NanopubGenerator.generateArgs st ext).template_uri = true
    · rw [if_pos ht, hTL, modifyLast_concat]
      simp
    · rw [if_neg ht, hTL, modifyLast_concat]
      simp
  · rw [pubinfo_lines_eq]
    refine List.mem_append.mpr (Or.inl (List.mem_append.mpr (Or.inr ?_)))
    unfold thisFixed
    by_cases ht : pyTruthy (NanopubGenerator.generateArgs st ext).template_uri = true
    · rw [if_pos ht, if_pos (show pyTruthy st.config.template_uri = true from ht), hTL,
        modifyLast_concat,
        show plistLine (NanopubGenerator.generateArgs st ext) =
          ("    nt:wasCreatedFromPubinfoTemplate " ++
            templatesStr NanopubGenerator.PUBINFO_TEMPLATES) ++ " ;" from rfl,
        patchSemi_of_core _ '>' hcore (by decide) (by decide)]
      simp
    · rw [if_neg ht, if_neg (show ¬ pyTruthy st.config.template_uri = true from ht), hTL,
        modifyLast_concat,
        show plistLine (NanopubGenerator.generateArgs st ext) =
          ("    nt:wasCreatedFromPubinfoTemplate " ++
            templatesStr NanopubGenerator.PUBINFO_TEMPLATES) ++ " ;" from rfl,
        dotTerm_of_core _ '>' hcore (by decide)]
      simp
  · exact ⟨get_prefixes_block (ext st).1 ++ "\n\n" ++
      generate_head_graph (ext st).1.subPfx ++ "\n\n" ++ (ext st).2 ++ "\n\n" ++
      generate_provenance_graph (ext st).1.subPfx
        (st.config.creator_orcid.getD "0000-0000-0000-0000") ++ "\n\n", rfl⟩
